import Mathlib

set_option maxRecDepth 100000

/-!
Shallow embedding of the `zig-plotille` DotCell library.

The repository ships the C header `src/zig-plotille.h` declaring the
operations, together with sample callers; the implementation behind the
header is not part of the sources given here, so each operation below is
modelled from the specification's description of it.
-/

/-- The `Dots` struct of `zig-plotille.h`: an 8-bit mask, one bit per dot of
a 2-column by 4-row Braille grid.  Only the low 8 bits are meaningful; the
embedding keeps the mask as a `Nat` and states `< 256` where it matters. -/
structure Dots where
  dots : Nat
  deriving DecidableEq, Repr

/-- Modelled from the spec: the canonical Braille dot-to-bit table used by
`set`/`unset` ("dots 1,2,3,7 in left column top-to-bottom, dots 4,5,6,8 in
right column top-to-bottom", bit weights `2^0..2^7`): column `x ∈ {1,2}`,
row `y ∈ {1,2,3,4}`.  Out-of-range coordinates are unspecified in the spec
(a precondition violation); the model returns bit 0 for them, and no claim
depends on that choice. -/
def dotBit : Nat → Nat → Nat
  | 1, 1 => 0
  | 1, 2 => 1
  | 1, 3 => 2
  | 1, 4 => 6
  | 2, 1 => 3
  | 2, 2 => 4
  | 2, 3 => 5
  | 2, 4 => 7
  | _, _ => 0

/-- Modelled from the spec: `dots_init` "returns a DotCell with all 8 dots
cleared (value 0)". -/
def dots_init : Dots := ⟨0⟩

/-- Modelled from the spec: `dots_fill` "sets all 8 bits (value becomes
0xFF — all dots on)". -/
def dots_fill (_self : Dots) : Dots := ⟨0xFF⟩

/-- Modelled from the spec: `dots_clear` "resets all bits (value becomes
0x00 — all dots off)". -/
def dots_clear (_self : Dots) : Dots := ⟨0⟩

/-- Modelled from the spec: `dots_set` "mutates cell in place by OR-ing in
the bit corresponding to (x,y)". -/
def dots_set (self : Dots) (x y : Nat) : Dots :=
  ⟨self.dots ||| 2 ^ dotBit x y⟩

/-- Modelled from the spec: `dots_unset` "clears the corresponding bit (AND
with the bit's complement)".  The complement is taken within the 8
meaningful bits. -/
def dots_unset (self : Dots) (x y : Nat) : Dots :=
  ⟨self.dots &&& (255 - 2 ^ dotBit x y)⟩

/-- The 3-byte UTF-8 encoding of a code point in `0x800..0xFFFF` (every
point of the Braille Patterns block `0x2800..0x28FF` is in this range). -/
def utf8Encode3 (cp : Nat) : List Nat :=
  [0xE0 ||| (cp >>> 12), 0x80 ||| ((cp >>> 6) &&& 0x3F), 0x80 ||| (cp &&& 0x3F)]

/-- Decoding of a 3-byte UTF-8 sequence back to its code point (payload bits
of the lead byte and of the two continuation bytes). -/
def utf8Decode3 (bytes : List Nat) : Nat :=
  match bytes with
  | [b0, b1, b2] => ((b0 &&& 0x0F) <<< 12) ||| ((b1 &&& 0x3F) <<< 6) ||| (b2 &&& 0x3F)
  | _ => 0

/-- Modelled from the spec: `dots_str` "computes the Unicode scalar value
`0x2800 + cell.value` and writes its UTF-8 encoding (3 bytes) into `buffer`
starting at offset 0" and "returns the number of bytes written (always 3)".
The spec states the capacity parameter is unchecked in the source ("the
source is unchecked here, a known gap to close in redesign"), so the model
writes all 3 bytes regardless of `len`.  The buffer is a list of bytes;
`List.set` silently drops a write past the end of the list, standing in for
the physical memory that an out-of-bounds write would touch. -/
def dots_str (self : Dots) (buf : List Nat) (_len : Nat) : Nat × List Nat :=
  let cp := 0x2800 + self.dots
  let e := utf8Encode3 cp
  (3, ((buf.set 0 (e.get! 0)).set 1 (e.get! 1)).set 2 (e.get! 2))

/-- The call site of the samples (`dots_str(dot, buffer, len)`): the C
function receives the struct by value, so the post-state of the caller
pairs the untouched cell with the updated buffer and the returned length. -/
def render_call (dot : Dots) (buffer : List Nat) (len : Nat) : Dots × List Nat × Nat :=
  (dot, (dots_str dot buffer len).2, (dots_str dot buffer len).1)

/- Helper lemmas shared by the claim theorems. -/

lemma utf8Encode3_braille (m : Nat) (hm : m < 256) :
    utf8Encode3 (0x2800 + m) =
      [0xE0 + (0x2800 + m) / 4096, 0x80 + (0x2800 + m) / 64 % 64, 0x80 + (0x2800 + m) % 64] := by
  revert m
  decide

lemma utf8Decode3_braille (m : Nat) (hm : m < 256) :
    utf8Decode3 (utf8Encode3 (0x2800 + m)) = 0x2800 + m := by
  revert m
  decide

lemma dots_str_buf (d : Dots) (buf : List Nat) (len : Nat) (hbuf : 3 ≤ buf.length) :
    (dots_str d buf len).2 =
      (utf8Encode3 (0x2800 + d.dots)).get! 0 :: (utf8Encode3 (0x2800 + d.dots)).get! 1 ::
        (utf8Encode3 (0x2800 + d.dots)).get! 2 :: buf.drop 3 := by
  match buf with
  | b0 :: b1 :: b2 :: rest => rfl
  | [] => simp at hbuf
  | [b0] => simp at hbuf
  | [b0, b1] => simp at hbuf

lemma dots_str_take (d : Dots) (buf : List Nat) (len : Nat) (hbuf : 3 ≤ buf.length) :
    (dots_str d buf len).2.take 3 = utf8Encode3 (0x2800 + d.dots) := by
  rw [dots_str_buf d buf len hbuf]
  rfl

lemma dots_str_drop (d : Dots) (buf : List Nat) (len : Nat) (hbuf : 3 ≤ buf.length) :
    (dots_str d buf len).2.drop 3 = buf.drop 3 := by
  rw [dots_str_buf d buf len hbuf]
  rfl

/-- C1: for every mask `m < 256` and every buffer of capacity at least 3,
`dots_str` returns 3 and writes exactly the 3-byte UTF-8 encoding of code
point `0x2800 + m` (spelled out arithmetically: lead byte `0xE0` plus the
high 4 bits, continuation bytes `0x80` plus the middle and low 6 bits) at
offset 0, leaving the rest of the buffer unchanged. -/
theorem dots_str_writes_utf8 (m : Nat) (hm : m < 256) (buf : List Nat)
    (hbuf : 3 ≤ buf.length) (len : Nat) (_hlen : 3 ≤ len) :
    (dots_str ⟨m⟩ buf len).1 = 3 ∧
    (dots_str ⟨m⟩ buf len).2.take 3 =
      [0xE0 + (0x2800 + m) / 4096, 0x80 + (0x2800 + m) / 64 % 64, 0x80 + (0x2800 + m) % 64] ∧
    (dots_str ⟨m⟩ buf len).2.drop 3 = buf.drop 3 := by
  refine ⟨rfl, ?_, dots_str_drop _ buf len hbuf⟩
  rw [dots_str_take _ buf len hbuf]
  exact utf8Encode3_braille m hm

/-- C1 witness: the theorem applied at mask 5 and a concrete 3-byte buffer. -/
theorem dots_str_writes_utf8_witness :
    (dots_str ⟨5⟩ [0, 0, 0] 3).1 = 3 ∧
    (dots_str ⟨5⟩ [0, 0, 0] 3).2.take 3 =
      [0xE0 + (0x2800 + 5) / 4096, 0x80 + (0x2800 + 5) / 64 % 64, 0x80 + (0x2800 + 5) % 64] ∧
    (dots_str ⟨5⟩ [0, 0, 0] 3).2.drop 3 = ([0, 0, 0] : List Nat).drop 3 :=
  dots_str_writes_utf8 5 (by decide) [0, 0, 0] (by decide) 3 (by decide)

/-- C2: decoding the 3 bytes written by `dots_str` as UTF-8 and subtracting
`0x2800` recovers the mask, for every mask `m < 256`. -/
theorem dots_str_roundtrip (m : Nat) (hm : m < 256) (buf : List Nat)
    (hbuf : 3 ≤ buf.length) (len : Nat) :
    utf8Decode3 ((dots_str ⟨m⟩ buf len).2.take 3) - 0x2800 = m := by
  rw [dots_str_take _ buf len hbuf]
  have h := utf8Decode3_braille m hm
  simp only [h]
  omega

/-- C2 witness: the round trip at mask 200 on a concrete buffer. -/
theorem dots_str_roundtrip_witness :
    utf8Decode3 ((dots_str ⟨200⟩ [0, 0, 0, 0] 4).2.take 3) - 0x2800 = 200 :=
  dots_str_roundtrip 200 (by decide) [0, 0, 0, 0] (by decide) 4

/-- C3: the claim asks that `dots_str` with capacity < 3 fail safely and
never write at or beyond the capacity.  The spec records that the source is
unchecked here ("a known gap to close in redesign"), and the model shows it:
called on a 3-byte buffer with capacity 2, `dots_str` still writes all three
bytes, changing the byte at offset 2 — an offset at or beyond the given
capacity. -/
theorem dots_str_writes_beyond_capacity :
    2 < 3 ∧
    ((dots_str ⟨0⟩ [9, 9, 9] 2).2.get? 2 = some 0x80 ∧ ([9, 9, 9] : List Nat).get? 2 = some 9) := by
  decide

/-- C4: the claim "set then unset restores the original value for every
cell" fails on a cell that already holds the dot: on mask 1 (dot (1,1) on),
`set(1,1)` is a no-op and `unset(1,1)` clears the dot, giving mask 0 ≠ 1. -/
theorem set_unset_not_inverse_on_set_dot :
    dots_unset (dots_set ⟨1⟩ 1 1) 1 1 ≠ ⟨1⟩ := by
  decide

/-- C4 (amended): for every mask `m < 256` and in-range coordinates with the
(x,y) dot initially off, `set(x,y)` then `unset(x,y)` restores the original
value; and starting from the empty cell, `unset(x,y)` then `set(x,y)` yields
the cell with exactly the (x,y) dot set. -/
theorem set_unset_roundtrip (m : Nat) (hm : m < 256) (x : Nat) (hx1 : 1 ≤ x)
    (hx2 : x ≤ 2) (y : Nat) (hy1 : 1 ≤ y) (hy2 : y ≤ 4) :
    (Nat.testBit m (dotBit x y) = false → dots_unset (dots_set ⟨m⟩ x y) x y = ⟨m⟩) ∧
    dots_set (dots_unset ⟨0⟩ x y) x y = ⟨2 ^ dotBit x y⟩ := by
  interval_cases x <;> interval_cases y <;> (revert m; decide)

/-- C4 witness: the amended theorem applied at mask 0 and coordinate (1,1),
with the dot initially off. -/
theorem set_unset_roundtrip_witness :
    (Nat.testBit 0 (dotBit 1 1) = false → dots_unset (dots_set ⟨0⟩ 1 1) 1 1 = ⟨0⟩) ∧
    dots_set (dots_unset ⟨0⟩ 1 1) 1 1 = ⟨2 ^ dotBit 1 1⟩ :=
  set_unset_roundtrip 0 (by decide) 1 (by decide) (by decide) 1 (by decide) (by decide)

/-- C5: all four mutators are idempotent: for every mask `m < 256` and
in-range coordinates, `set(x,y)` twice equals `set(x,y)` once, and likewise
for `unset`, `fill` and `clear`. -/
theorem mutators_idempotent (m : Nat) (hm : m < 256) (x : Nat) (hx1 : 1 ≤ x)
    (hx2 : x ≤ 2) (y : Nat) (hy1 : 1 ≤ y) (hy2 : y ≤ 4) :
    dots_set (dots_set ⟨m⟩ x y) x y = dots_set ⟨m⟩ x y ∧
    dots_unset (dots_unset ⟨m⟩ x y) x y = dots_unset ⟨m⟩ x y ∧
    dots_fill (dots_fill ⟨m⟩) = dots_fill ⟨m⟩ ∧
    dots_clear (dots_clear ⟨m⟩) = dots_clear ⟨m⟩ := by
  interval_cases x <;> interval_cases y <;> (revert m; decide)

/-- C5 witness: idempotence at mask 170 and coordinate (2,3). -/
theorem mutators_idempotent_witness :
    dots_set (dots_set ⟨170⟩ 2 3) 2 3 = dots_set ⟨170⟩ 2 3 ∧
    dots_unset (dots_unset ⟨170⟩ 2 3) 2 3 = dots_unset ⟨170⟩ 2 3 ∧
    dots_fill (dots_fill ⟨170⟩) = dots_fill ⟨170⟩ ∧
    dots_clear (dots_clear ⟨170⟩) = dots_clear ⟨170⟩ :=
  mutators_idempotent 170 (by decide) 2 (by decide) (by decide) 3 (by decide) (by decide)

/-- C6: `dots_init` returns the all-off mask 0, and rendering it into any
buffer of capacity at least 3 returns 3 and writes exactly the bytes
`0xE2 0xA0 0x80`, the UTF-8 encoding of U+2800. -/
theorem init_renders_u2800 (buf : List Nat) (hbuf : 3 ≤ buf.length) (len : Nat)
    (_hlen : 3 ≤ len) :
    dots_init.dots = 0 ∧
    (dots_str dots_init buf len).1 = 3 ∧
    (dots_str dots_init buf len).2.take 3 = [0xE2, 0xA0, 0x80] := by
  refine ⟨rfl, rfl, ?_⟩
  rw [dots_str_take _ buf len hbuf]
  rfl

/-- C6 witness: the theorem applied to a concrete 3-byte buffer. -/
theorem init_renders_u2800_witness :
    dots_init.dots = 0 ∧
    (dots_str dots_init [7, 7, 7] 3).1 = 3 ∧
    (dots_str dots_init [7, 7, 7] 3).2.take 3 = [0xE2, 0xA0, 0x80] :=
  init_renders_u2800 [7, 7, 7] (by decide) 3 (by decide)

/-- C7: `dots_fill` sets the mask to 0xFF for every starting cell, and
rendering the filled cell into any buffer of capacity at least 3 returns 3
and writes exactly the bytes `0xE2 0xA3 0xBF`, the UTF-8 encoding of
U+28FF. -/
theorem fill_renders_u28ff (m : Nat) (buf : List Nat) (hbuf : 3 ≤ buf.length)
    (len : Nat) (_hlen : 3 ≤ len) :
    (dots_fill ⟨m⟩).dots = 0xFF ∧
    (dots_str (dots_fill ⟨m⟩) buf len).1 = 3 ∧
    (dots_str (dots_fill ⟨m⟩) buf len).2.take 3 = [0xE2, 0xA3, 0xBF] := by
  refine ⟨rfl, rfl, ?_⟩
  rw [dots_str_take _ buf len hbuf]
  have h : (dots_fill ⟨m⟩).dots = 255 := rfl
  rw [h]
  decide

/-- C7 witness: the theorem applied at mask 42 and a concrete buffer. -/
theorem fill_renders_u28ff_witness :
    (dots_fill ⟨42⟩).dots = 0xFF ∧
    (dots_str (dots_fill ⟨42⟩) [0, 0, 0] 3).1 = 3 ∧
    (dots_str (dots_fill ⟨42⟩) [0, 0, 0] 3).2.take 3 = [0xE2, 0xA3, 0xBF] :=
  fill_renders_u28ff 42 [0, 0, 0] (by decide) 3 (by decide)

/-- C8: `dots_clear` sets the mask to 0 for every starting cell, and in
particular clearing a filled cell reproduces `dots_init` exactly. -/
theorem clear_reinitializes (m : Nat) :
    (dots_clear ⟨m⟩).dots = 0 ∧ dots_clear (dots_fill ⟨m⟩) = dots_init :=
  ⟨rfl, rfl⟩

/-- C9: the sample program's sequence `init`, `set(1,1)`, `set(1,2)` yields
the mask `bit(1,1) ||| bit(1,2) = 3` under the canonical table, and
rendering it into any buffer of capacity at least 3 writes exactly the
bytes `0xE2 0xA0 0x83`, the UTF-8 encoding of U+2803. -/
theorem sample_renders_u2803 (buf : List Nat) (hbuf : 3 ≤ buf.length) (len : Nat)
    (_hlen : 3 ≤ len) :
    (dots_set (dots_set dots_init 1 1) 1 2).dots = 2 ^ dotBit 1 1 ||| 2 ^ dotBit 1 2 ∧
    (dots_set (dots_set dots_init 1 1) 1 2).dots = 3 ∧
    (dots_str (dots_set (dots_set dots_init 1 1) 1 2) buf len).2.take 3 = [0xE2, 0xA0, 0x83] := by
  refine ⟨rfl, rfl, ?_⟩
  rw [dots_str_take _ buf len hbuf]
  rfl

/-- C9 witness: the sample sequence rendered into a concrete buffer of
length 100, as in `samples/dots.c`. -/
theorem sample_renders_u2803_witness :
    (dots_set (dots_set dots_init 1 1) 1 2).dots = 2 ^ dotBit 1 1 ||| 2 ^ dotBit 1 2 ∧
    (dots_set (dots_set dots_init 1 1) 1 2).dots = 3 ∧
    (dots_str (dots_set (dots_set dots_init 1 1) 1 2) (List.replicate 100 0) 100).2.take 3 =
      [0xE2, 0xA0, 0x83] :=
  sample_renders_u2803 (List.replicate 100 0) (by decide) 100 (by decide)

/-- C10: `dots_str` receives the cell by value, so the caller's cell after
the call — the first component of the call's post-state — is exactly the
cell before the call, for every cell, buffer and capacity. -/
theorem render_preserves_cell (d : Dots) (buf : List Nat) (len : Nat) :
    (render_call d buf len).1 = d :=
  rfl
